import Mathlib

/-!
Verification of `convert_paprika_to_nextcloud.py`, a one-shot batch
converter from Paprika recipe exports to Nextcloud-Cookbook folders.

The Python source is shallowly embedded: strings are Lean `String`
(operated on through their `List Char` data where convenient), JSON
values are an inductive `JsonVal`, the filesystem is an association
list from path strings to file contents, and the console log is a list
of structured entries. Python builtins used by the script
(`str.strip`, `str.lower`, `re.sub` for the two fixed patterns,
`str.split`, `base64.b64decode`, dict `.get`) are modelled by
executable Lean functions with ASCII semantics.
-/

namespace Paprika

/-! ## Python character-level primitives -/

/-- Python regex `\s` / `str.strip` whitespace, ASCII range:
space, tab, newline, carriage return, vertical tab, form feed. -/
def pyIsSpace (c : Char) : Bool :=
  c == ' ' || c == '\t' || c == '\n' || c == '\r' || c == '\x0b' || c == '\x0c'

/-- Python regex `\w` (ASCII): alphanumeric or underscore. -/
def pyIsWord (c : Char) : Bool :=
  c.isAlphanum || c == '_'

/-- Character kept by `re.sub(r"[^\w\-]", "", s)`: word character or hyphen. -/
def pyKeep (c : Char) : Bool :=
  pyIsWord c || c == '-'

/-- Python `str.lower` on one character (ASCII). -/
def pyToLower (c : Char) : Char :=
  if 'A' ≤ c ∧ c ≤ 'Z' then Char.ofNat (c.toNat + 32) else c

/-- `str.strip()`: drop leading and trailing whitespace. -/
def pyStripL (l : List Char) : List Char :=
  ((l.dropWhile pyIsSpace).reverse.dropWhile pyIsSpace).reverse

/-- `re.sub(r"\s+", "_", s)` scanning with a flag telling whether the
previous character was part of a whitespace run already replaced. -/
def collapseWSAux : Bool → List Char → List Char
  | _, [] => []
  | prevWS, c :: cs =>
    if pyIsSpace c then
      (if prevWS then ([] : List Char) else ['_']) ++ collapseWSAux true cs
    else
      c :: collapseWSAux false cs

/-- `re.sub(r"\s+", "_", s)`: each maximal whitespace run becomes one
underscore. -/
def collapseWS (l : List Char) : List Char :=
  collapseWSAux false l

/-- `safe_dirname` on character lists: strip, lowercase, collapse
whitespace runs to underscores, delete non-word non-hyphen characters,
and fall back to `unnamed_recipe` when empty (Python `s or "unnamed_recipe"`). -/
def safeDirnameL (l : List Char) : List Char :=
  let s1 := pyStripL l
  let s2 := s1.map pyToLower
  let s3 := collapseWS s2
  let s4 := s3.filter pyKeep
  if s4 = [] then "unnamed_recipe".data else s4

/-- The source's `safe_dirname`: filesystem-safe folder name from a recipe title. -/
def safe_dirname (name : String) : String :=
  ⟨safeDirnameL name.data⟩

/-! ## Basic character lemmas -/

theorem char_le_iff {a b : Char} : a ≤ b ↔ a.toNat ≤ b.toNat := by
  simp [Char.le_def, UInt32.le_def, BitVec.le_def, Char.toNat, UInt32.toNat]

theorem char_eq_iff {a b : Char} : a = b ↔ a.toNat = b.toNat := by
  constructor
  · intro h
    exact h ▸ rfl
  · intro h
    exact Char.ext (UInt32.eq_of_toBitVec_eq (BitVec.eq_of_toNat_eq h))

theorem toNat_ofNat_valid {n : Nat} (h : n.isValidChar) :
    (Char.ofNat n).toNat = n := by
  rw [Char.ofNat, dif_pos h]
  rfl

/-- `pyToLower` never returns an ASCII uppercase letter. -/
theorem pyToLower_not_upper (c : Char) :
    ¬ (65 ≤ (pyToLower c).toNat ∧ (pyToLower c).toNat ≤ 90) := by
  unfold pyToLower
  by_cases h : 'A' ≤ c ∧ c ≤ 'Z'
  · rw [if_pos h]
    have h1 : c.toNat ≤ 90 := by
      have := h.2
      rw [char_le_iff] at this
      simpa using this
    have h2 : 65 ≤ c.toNat := by
      have := h.1
      rw [char_le_iff] at this
      simpa using this
    have hv : (c.toNat + 32).isValidChar := Or.inl (by omega)
    rw [toNat_ofNat_valid hv]
    omega
  · rw [if_neg h]
    intro hc
    apply h
    constructor
    · rw [char_le_iff]
      simpa using hc.1
    · rw [char_le_iff]
      simpa using hc.2

/-- A character that is not ASCII uppercase is fixed by `pyToLower`. -/
theorem pyToLower_fix {c : Char} (h : ¬ (65 ≤ c.toNat ∧ c.toNat ≤ 90)) :
    pyToLower c = c := by
  unfold pyToLower
  rw [if_neg]
  intro hc
  apply h
  exact ⟨by simpa using char_le_iff.mp hc.1, by simpa using char_le_iff.mp hc.2⟩

/-! ## Spec-side sanitizer (for the refinement claim)

These definitions follow the specification's wording for the Name
Sanitizer: trim, lowercase, collapse each maximal whitespace run into a
single underscore, delete every character that is not alphanumeric,
underscore or hyphen, and fall back to the literal token when empty.
The collapse step is written by direct case analysis on maximal runs,
independent of the regex-scan formulation above. -/

/-- Spec wording: each maximal run of whitespace becomes one underscore
(a whitespace character followed by more whitespace is dropped; the last
whitespace of a run emits the underscore). -/
def specCollapse : List Char → List Char
  | [] => []
  | [c] => if pyIsSpace c then ['_'] else [c]
  | c1 :: c2 :: rest =>
    if pyIsSpace c1 then
      if pyIsSpace c2 then specCollapse (c2 :: rest)
      else '_' :: specCollapse (c2 :: rest)
    else
      c1 :: specCollapse (c2 :: rest)

/-- Spec wording: keep exactly the alphanumerics, underscore and hyphen. -/
def specKeep (c : Char) : Bool :=
  c.isAlphanum || c == '_' || c == '-'

/-- The Name Sanitizer as the specification describes it. -/
def safe_dirname_specced (name : String) : String :=
  let s1 := pyStripL name.data
  let s2 := s1.map pyToLower
  let s3 := specCollapse s2
  let s4 := s3.filter specKeep
  if s4 = [] then "unnamed_recipe" else ⟨s4⟩

theorem specCollapse_cons_notspace {c : Char} (h : pyIsSpace c = false)
    (cs : List Char) : specCollapse (c :: cs) = c :: specCollapse cs := by
  cases cs with
  | nil => simp [specCollapse, h]
  | cons c2 rest => simp [specCollapse, h]

theorem specCollapse_space : ∀ (cs : List Char) (c : Char), pyIsSpace c = true →
    specCollapse (c :: cs) = '_' :: specCollapse (cs.dropWhile pyIsSpace) := by
  intro cs
  induction cs with
  | nil =>
    intro c h
    simp [specCollapse, h, List.dropWhile]
  | cons c2 rest ih =>
    intro c h
    by_cases h2 : pyIsSpace c2 = true
    · have e1 : specCollapse (c :: c2 :: rest) = specCollapse (c2 :: rest) := by
        simp [specCollapse, h, h2]
      rw [e1, ih c2 h2, List.dropWhile_cons_of_pos (by simpa using h2)]
    · have hf : pyIsSpace c2 = false := by simpa using h2
      have e1 : specCollapse (c :: c2 :: rest) = '_' :: specCollapse (c2 :: rest) := by
        simp [specCollapse, h, hf]
      rw [e1, List.dropWhile_cons_of_neg (by simp [hf])]

theorem collapseWSAux_eq_spec : ∀ l : List Char,
    collapseWSAux false l = specCollapse l ∧
    collapseWSAux true l = specCollapse (l.dropWhile pyIsSpace) := by
  intro l
  induction l with
  | nil => exact ⟨rfl, rfl⟩
  | cons c cs ih =>
    by_cases h : pyIsSpace c = true
    · constructor
      · have e1 : collapseWSAux false (c :: cs) = '_' :: collapseWSAux true cs := by
          simp [collapseWSAux, h]
        rw [e1, ih.2, specCollapse_space cs c h]
      · have e1 : collapseWSAux true (c :: cs) = collapseWSAux true cs := by
          simp [collapseWSAux, h]
        rw [e1, ih.2, List.dropWhile_cons_of_pos (by simpa using h)]
    · have hf : pyIsSpace c = false := by simpa using h
      have e1 : ∀ b, collapseWSAux b (c :: cs) = c :: collapseWSAux false cs := by
        intro b
        simp [collapseWSAux, hf]
      constructor
      · rw [e1, ih.1, specCollapse_cons_notspace hf]
      · rw [e1, ih.1, List.dropWhile_cons_of_neg (by simp [hf]),
          specCollapse_cons_notspace hf]

theorem collapseWS_eq_spec (l : List Char) : collapseWS l = specCollapse l :=
  (collapseWSAux_eq_spec l).1

theorem pyKeep_eq_specKeep (c : Char) : pyKeep c = specKeep c := by
  simp [pyKeep, pyIsWord, specKeep]

/-! ## Character-set and idempotence machinery for the sanitizer -/

/-- Allowed output character: lowercase letter, digit, underscore or hyphen. -/
def goodChar (c : Char) : Bool :=
  c.isLower || c.isDigit || c == '_' || c == '-'

theorem isUpper_iff {c : Char} : c.isUpper = true ↔ 65 ≤ c.toNat ∧ c.toNat ≤ 90 := by
  simp [Char.isUpper, UInt32.le_def, BitVec.le_def, Char.toNat, UInt32.toNat]

theorem isLower_iff {c : Char} : c.isLower = true ↔ 97 ≤ c.toNat ∧ c.toNat ≤ 122 := by
  simp [Char.isLower, UInt32.le_def, BitVec.le_def, Char.toNat, UInt32.toNat]

theorem isDigit_iff {c : Char} : c.isDigit = true ↔ 48 ≤ c.toNat ∧ c.toNat ≤ 57 := by
  simp [Char.isDigit, UInt32.le_def, BitVec.le_def, Char.toNat, UInt32.toNat]

theorem eq_iff_toNat {c d : Char} : c == d ↔ c.toNat = d.toNat := by
  rw [beq_iff_eq]
  exact char_eq_iff

example : ('_' : Char).toNat = 95 := by decide
example : ('-' : Char).toNat = 45 := by decide

theorem goodChar_iff {c : Char} : goodChar c = true ↔
    (97 ≤ c.toNat ∧ c.toNat ≤ 122) ∨ (48 ≤ c.toNat ∧ c.toNat ≤ 57) ∨
    c.toNat = 95 ∨ c.toNat = 45 := by
  simp only [goodChar, Bool.or_eq_true, isLower_iff, isDigit_iff, eq_iff_toNat]
  constructor
  · rintro (((h | h) | h) | h)
    · exact Or.inl h
    · exact Or.inr (Or.inl h)
    · exact Or.inr (Or.inr (Or.inl h))
    · exact Or.inr (Or.inr (Or.inr h))
  · rintro (h | h | h | h)
    · exact Or.inl (Or.inl (Or.inl h))
    · exact Or.inl (Or.inl (Or.inr h))
    · exact Or.inl (Or.inr h)
    · exact Or.inr h

theorem pyIsSpace_iff {c : Char} : pyIsSpace c = true ↔
    c.toNat = 32 ∨ c.toNat = 9 ∨ c.toNat = 10 ∨ c.toNat = 13 ∨
    c.toNat = 11 ∨ c.toNat = 12 := by
  have e1 : (' ').toNat = 32 := by decide
  have e2 : ('\t').toNat = 9 := by decide
  have e3 : ('\n').toNat = 10 := by decide
  have e4 : ('\r').toNat = 13 := by decide
  have e5 : ('\x0b').toNat = 11 := by decide
  have e6 : ('\x0c').toNat = 12 := by decide
  simp only [pyIsSpace, Bool.or_eq_true, eq_iff_toNat, e1, e2, e3, e4, e5, e6]
  tauto

theorem pyKeep_iff {c : Char} : pyKeep c = true ↔
    (65 ≤ c.toNat ∧ c.toNat ≤ 90) ∨ (97 ≤ c.toNat ∧ c.toNat ≤ 122) ∨
    (48 ≤ c.toNat ∧ c.toNat ≤ 57) ∨ c.toNat = 95 ∨ c.toNat = 45 := by
  simp only [pyKeep, pyIsWord, Char.isAlphanum, Char.isAlpha, Bool.or_eq_true,
    isUpper_iff, isLower_iff, isDigit_iff, eq_iff_toNat]
  constructor
  · rintro ((((h | h) | h) | h) | h)
    · exact Or.inl h
    · exact Or.inr (Or.inl h)
    · exact Or.inr (Or.inr (Or.inl h))
    · exact Or.inr (Or.inr (Or.inr (Or.inl h)))
    · exact Or.inr (Or.inr (Or.inr (Or.inr h)))
  · rintro (h | h | h | h | h)
    · exact Or.inl (Or.inl (Or.inl (Or.inl h)))
    · exact Or.inl (Or.inl (Or.inl (Or.inr h)))
    · exact Or.inl (Or.inl (Or.inr h))
    · exact Or.inl (Or.inr h)
    · exact Or.inr h

/-- A kept character that is not uppercase is an allowed output character. -/
theorem goodChar_of_keep {c : Char} (hk : pyKeep c = true)
    (hu : ¬ (65 ≤ c.toNat ∧ c.toNat ≤ 90)) : goodChar c = true := by
  rw [goodChar_iff]
  rcases pyKeep_iff.mp hk with h | h | h | h | h
  · exact absurd h hu
  · exact Or.inl h
  · exact Or.inr (Or.inl h)
  · exact Or.inr (Or.inr (Or.inl h))
  · exact Or.inr (Or.inr (Or.inr h))

theorem goodChar_not_space {c : Char} (h : goodChar c = true) :
    pyIsSpace c = false := by
  rw [Bool.eq_false_iff]
  intro hs
  rcases pyIsSpace_iff.mp hs with h1 | h1 | h1 | h1 | h1 | h1 <;>
    rcases goodChar_iff.mp h with h2 | h2 | h2 | h2 <;> omega

theorem goodChar_not_upper {c : Char} (h : goodChar c = true) :
    ¬ (65 ≤ c.toNat ∧ c.toNat ≤ 90) := by
  intro hu
  rcases goodChar_iff.mp h with h2 | h2 | h2 | h2 <;> omega

theorem goodChar_keep {c : Char} (h : goodChar c = true) : pyKeep c = true := by
  rw [pyKeep_iff]
  rcases goodChar_iff.mp h with h2 | h2 | h2 | h2
  · exact Or.inr (Or.inl h2)
  · exact Or.inr (Or.inr (Or.inl h2))
  · exact Or.inr (Or.inr (Or.inr (Or.inl h2)))
  · exact Or.inr (Or.inr (Or.inr (Or.inr h2)))

/-- Every character of the collapse output is an underscore or a
non-whitespace character of the input. -/
theorem mem_collapseWSAux : ∀ (b : Bool) (l : List Char) (c : Char),
    c ∈ collapseWSAux b l → c = '_' ∨ (c ∈ l ∧ pyIsSpace c = false) := by
  intro b l
  induction l generalizing b with
  | nil =>
    intro c hc
    simp [collapseWSAux] at hc
  | cons d cs ih =>
    intro c hc
    by_cases h : pyIsSpace d = true
    · simp only [collapseWSAux, h, if_true] at hc
      rcases List.mem_append.mp hc with h1 | h1
      · left
        cases b with
        | true => simp at h1
        | false => simpa using h1
      · rcases ih true c h1 with h2 | h2
        · exact Or.inl h2
        · exact Or.inr ⟨List.mem_cons_of_mem d h2.1, h2.2⟩
    · have hf : pyIsSpace d = false := by simpa using h
      simp only [collapseWSAux, hf, Bool.false_eq_true, if_false] at hc
      rcases List.mem_cons.mp hc with h1 | h1
      · subst h1
        exact Or.inr ⟨List.mem_cons_self _ _, hf⟩
      · rcases ih false c h1 with h2 | h2
        · exact Or.inl h2
        · exact Or.inr ⟨List.mem_cons_of_mem d h2.1, h2.2⟩

/-- Every character of the sanitizer's output is an allowed character. -/
theorem safeDirnameL_good (l : List Char) :
    ∀ c ∈ safeDirnameL l, goodChar c = true := by
  intro c hc
  unfold safeDirnameL at hc
  by_cases he : (collapseWS ((pyStripL l).map pyToLower)).filter pyKeep = []
  · rw [if_pos he] at hc
    fin_cases hc <;> decide
  · rw [if_neg he] at hc
    have hk : pyKeep c = true := List.of_mem_filter hc
    have hm : c ∈ collapseWS ((pyStripL l).map pyToLower) := List.mem_of_mem_filter hc
    rcases mem_collapseWSAux false _ c hm with h1 | h1
    · subst h1
      decide
    · rcases List.mem_map.mp h1.1 with ⟨d, _, hd⟩
      subst hd
      exact goodChar_of_keep hk (pyToLower_not_upper d)

theorem dropWhile_eq_self_of_none {l : List Char}
    (h : ∀ c ∈ l, pyIsSpace c = false) : l.dropWhile pyIsSpace = l := by
  cases l with
  | nil => rfl
  | cons c cs =>
    exact List.dropWhile_cons_of_neg (by simp [h c (List.mem_cons_self c cs)])

theorem pyStripL_eq_self {l : List Char}
    (h : ∀ c ∈ l, pyIsSpace c = false) : pyStripL l = l := by
  unfold pyStripL
  rw [dropWhile_eq_self_of_none h,
    dropWhile_eq_self_of_none (fun c hc => h c (List.mem_reverse.mp hc)),
    List.reverse_reverse]

theorem collapseWSAux_eq_self {l : List Char}
    (h : ∀ c ∈ l, pyIsSpace c = false) : ∀ b, collapseWSAux b l = l := by
  induction l with
  | nil => intro b; rfl
  | cons c cs ih =>
    intro b
    have hc : pyIsSpace c = false := h c (List.mem_cons_self c cs)
    simp only [collapseWSAux, hc, Bool.false_eq_true, if_false]
    rw [ih (fun d hd => h d (List.mem_cons_of_mem c hd)) false]

theorem map_pyToLower_eq_self {l : List Char}
    (h : ∀ c ∈ l, goodChar c = true) : l.map pyToLower = l := by
  induction l with
  | nil => rfl
  | cons c cs ih =>
    rw [List.map_cons,
      pyToLower_fix (goodChar_not_upper (h c (List.mem_cons_self c cs))),
      ih (fun d hd => h d (List.mem_cons_of_mem c hd))]

/-- The sanitizer output is never the empty list. -/
theorem safeDirnameL_ne_nil (l : List Char) : safeDirnameL l ≠ [] := by
  unfold safeDirnameL
  by_cases he : (collapseWS ((pyStripL l).map pyToLower)).filter pyKeep = []
  · rw [if_pos he]
    decide
  · rw [if_neg he]
    exact he

/-- On a list of allowed characters the whole pipeline is the identity. -/
theorem safeDirnameL_fix {l : List Char} (hg : ∀ c ∈ l, goodChar c = true)
    (hne : l ≠ []) : safeDirnameL l = l := by
  have hns : ∀ c ∈ l, pyIsSpace c = false :=
    fun c hc => goodChar_not_space (hg c hc)
  have h1 : pyStripL l = l := pyStripL_eq_self hns
  have h2 : List.map pyToLower l = l := map_pyToLower_eq_self hg
  have h3 : collapseWS l = l := collapseWSAux_eq_self hns false
  have h4 : List.filter pyKeep l = l :=
    List.filter_eq_self.mpr (fun c hc => goodChar_keep (hg c hc))
  unfold safeDirnameL
  simp only [h1, h2, h3, h4, if_neg hne]

/-- The sanitizer is idempotent at the character-list level. -/
theorem safeDirnameL_idem (l : List Char) :
    safeDirnameL (safeDirnameL l) = safeDirnameL l :=
  safeDirnameL_fix (safeDirnameL_good l) (safeDirnameL_ne_nil l)

theorem string_mk_ne_empty {l : List Char} (h : l ≠ []) :
    (⟨l⟩ : String) ≠ "" := by
  intro hc
  exact h (congrArg String.data hc)

/-! ## Claim theorems for the Name Sanitizer -/

/-- C1: for every input string, `safe_dirname` returns the result of
trimming, lowercasing, collapsing each maximal whitespace run to a
single underscore, deleting every remaining character that is not
alphanumeric, underscore or hyphen, with the literal fallback
`unnamed_recipe` when empty; in particular it maps
`Grandma's Apple Pie!` to `grandmas_apple_pie`. -/
theorem safe_dirname_matches_spec :
    (∀ s : String, safe_dirname s = safe_dirname_specced s) ∧
    safe_dirname "Grandma\x27s Apple Pie!" = "grandmas_apple_pie" := by
  constructor
  · intro s
    have hk : pyKeep = specKeep := funext pyKeep_eq_specKeep
    unfold safe_dirname safe_dirname_specced safeDirnameL
    simp only [collapseWS_eq_spec, hk]
    by_cases h :
        (specCollapse (List.map pyToLower (pyStripL s.data))).filter specKeep = []
    · rw [if_pos h, if_pos h]
    · rw [if_neg h, if_neg h]
  · decide

/-- C2: `safe_dirname` is total and idempotent, its output is never
empty, and its output contains only lowercase alphanumerics,
underscores and hyphens. -/
theorem safe_dirname_total_idempotent (s : String) :
    safe_dirname (safe_dirname s) = safe_dirname s ∧
    safe_dirname s ≠ "" ∧
    ∀ c ∈ (safe_dirname s).data, c.isLower ∨ c.isDigit ∨ c = '_' ∨ c = '-' := by
  refine ⟨?_, ?_, ?_⟩
  · show (⟨safeDirnameL (safeDirnameL s.data)⟩ : String) = ⟨safeDirnameL s.data⟩
    rw [safeDirnameL_idem]
  · exact string_mk_ne_empty (safeDirnameL_ne_nil s.data)
  · intro c hc
    have hg := safeDirnameL_good s.data c hc
    simp only [goodChar, Bool.or_eq_true, beq_iff_eq] at hg
    tauto

theorem safe_dirname_total_idempotent_witness :
    safe_dirname (safe_dirname "Tea Time") = safe_dirname "Tea Time" ∧
    (('t' : Char).isLower ∨ ('t' : Char).isDigit ∨ ('t' : Char) = '_' ∨
      ('t' : Char) = '-') := by
  constructor
  · exact (safe_dirname_total_idempotent "Tea Time").1
  · exact (safe_dirname_total_idempotent "Tea Time").2.2 't' (by decide)

/-! ## JSON values and Python dict access -/

/-- JSON values, as loaded by `json.load`.  Numbers are modelled as
integers (the sample data uses integer ratings). -/
inductive JsonVal where
  | null
  | bool (b : Bool)
  | num (n : Int)
  | str (s : String)
  | arr (elems : List JsonVal)
  | obj (fields : List (String × JsonVal))

/-- A parsed JSON object: ordered key-value pairs with unique keys,
as a Python dict preserves insertion order.  Lookup takes the first
binding. -/
def getJ (k : String) (r : List (String × JsonVal)) : Option JsonVal :=
  (r.find? (fun p => p.1 == k)).map (fun p => p.2)

/-- Python `dict.get(k, default)`. -/
def pyGet (k : String) (d : JsonVal) (r : List (String × JsonVal)) : JsonVal :=
  (getJ k r).getD d

/-- Python truthiness of a JSON value. -/
def truthy : JsonVal → Bool
  | .null => false
  | .bool b => b
  | .num n => n != 0
  | .str s => s != ""
  | .arr l => !l.isEmpty
  | .obj l => !l.isEmpty

/-- Python `s.split("\n")` at the character level: cut at every
newline, keeping empty pieces (so the empty string yields one empty
piece). -/
def splitLinesL : List Char → List (List Char)
  | [] => [[]]
  | c :: cs =>
    match splitLinesL cs with
    | [] => if c == '\n' then [[], []] else [[c]]
    | g :: gs => if c == '\n' then [] :: g :: gs else (c :: g) :: gs

/-- `[line.strip() for line in s.split("\n") if line.strip()]`:
split on newline, strip each line, keep the non-empty ones, in order. -/
def splitTrimLines (s : String) : List String :=
  ((splitLinesL s.data).map (fun l => (⟨pyStripL l⟩ : String))).filter
    (fun l => l != "")

/-- Ingredient/direction derivation: newline-split of the source string
when present and a string, otherwise empty. -/
def linesField (k : String) (r : List (String × JsonVal)) : List String :=
  match getJ k r with
  | some (JsonVal.str s) => splitTrimLines s
  | _ => []

/-- The source's `paprika_to_schemaorg`: map one Paprika record to a
minimal schema.org/Recipe object, field by field, with defaults. -/
def paprika_to_schemaorg (paprika_json : List (String × JsonVal)) :
    List (String × JsonVal) :=
  [("@context", JsonVal.str "https://schema.org/"),
   ("@type", JsonVal.str "Recipe"),
   ("name", pyGet "name" (JsonVal.str "Untitled") paprika_json),
   ("image", pyGet "image_url" (JsonVal.str "") paprika_json),
   ("recipeIngredient",
     JsonVal.arr ((linesField "ingredients" paprika_json).map JsonVal.str)),
   ("recipeInstructions",
     JsonVal.arr ((linesField "directions" paprika_json).map JsonVal.str)),
   ("description", pyGet "description" (JsonVal.str "") paprika_json),
   ("cookTime", pyGet "cook_time" (JsonVal.str "") paprika_json),
   ("prepTime", pyGet "prep_time" (JsonVal.str "") paprika_json),
   ("totalTime", pyGet "total_time" (JsonVal.str "") paprika_json),
   ("recipeYield", pyGet "servings" (JsonVal.str "") paprika_json),
   ("aggregateRating", JsonVal.obj
     [("@type", JsonVal.str "AggregateRating"),
      ("ratingValue", pyGet "rating" (JsonVal.num 0) paprika_json),
      ("ratingCount", JsonVal.num 1)]),
   ("author", pyGet "source" (JsonVal.str "") paprika_json),
   ("url", pyGet "source_url" (JsonVal.str "") paprika_json),
   ("notes", pyGet "notes" (JsonVal.str "") paprika_json),
   ("difficulty", pyGet "difficulty" (JsonVal.str "") paprika_json),
   ("nutritionalInfo", pyGet "nutritional_info" (JsonVal.str "") paprika_json),
   ("category", pyGet "categories" (JsonVal.arr []) paprika_json)]

/-- The mapper's output key sequence. -/
def schemaKeys : List String :=
  ["@context", "@type", "name", "image", "recipeIngredient",
   "recipeInstructions", "description", "cookTime", "prepTime",
   "totalTime", "recipeYield", "aggregateRating", "author", "url",
   "notes", "difficulty", "nutritionalInfo", "category"]

theorem getJ_eq_none_of_not_mem_keys {k : String} {r : List (String × JsonVal)}
    (h : k ∉ r.map Prod.fst) : getJ k r = none := by
  unfold getJ
  rw [List.find?_eq_none.mpr]
  · rfl
  · intro x hx
    simp only [beq_iff_eq]
    intro he
    exact h (he ▸ List.mem_map_of_mem Prod.fst hx)

/-! Field projections of the mapper output, each by computation. -/

theorem schema_name (r : List (String × JsonVal)) :
    getJ "name" (paprika_to_schemaorg r) =
      some (pyGet "name" (JsonVal.str "Untitled") r) := rfl

theorem schema_image (r : List (String × JsonVal)) :
    getJ "image" (paprika_to_schemaorg r) =
      some (pyGet "image_url" (JsonVal.str "") r) := rfl

theorem schema_ingredient (r : List (String × JsonVal)) :
    getJ "recipeIngredient" (paprika_to_schemaorg r) =
      some (JsonVal.arr ((linesField "ingredients" r).map JsonVal.str)) := rfl

theorem schema_instructions (r : List (String × JsonVal)) :
    getJ "recipeInstructions" (paprika_to_schemaorg r) =
      some (JsonVal.arr ((linesField "directions" r).map JsonVal.str)) := rfl

theorem schema_description (r : List (String × JsonVal)) :
    getJ "description" (paprika_to_schemaorg r) =
      some (pyGet "description" (JsonVal.str "") r) := rfl

theorem schema_cookTime (r : List (String × JsonVal)) :
    getJ "cookTime" (paprika_to_schemaorg r) =
      some (pyGet "cook_time" (JsonVal.str "") r) := rfl

theorem schema_prepTime (r : List (String × JsonVal)) :
    getJ "prepTime" (paprika_to_schemaorg r) =
      some (pyGet "prep_time" (JsonVal.str "") r) := rfl

theorem schema_totalTime (r : List (String × JsonVal)) :
    getJ "totalTime" (paprika_to_schemaorg r) =
      some (pyGet "total_time" (JsonVal.str "") r) := rfl

theorem schema_yield (r : List (String × JsonVal)) :
    getJ "recipeYield" (paprika_to_schemaorg r) =
      some (pyGet "servings" (JsonVal.str "") r) := rfl

theorem schema_rating (r : List (String × JsonVal)) :
    getJ "aggregateRating" (paprika_to_schemaorg r) =
      some (JsonVal.obj
        [("@type", JsonVal.str "AggregateRating"),
         ("ratingValue", pyGet "rating" (JsonVal.num 0) r),
         ("ratingCount", JsonVal.num 1)]) := rfl

theorem schema_author (r : List (String × JsonVal)) :
    getJ "author" (paprika_to_schemaorg r) =
      some (pyGet "source" (JsonVal.str "") r) := rfl

theorem schema_url (r : List (String × JsonVal)) :
    getJ "url" (paprika_to_schemaorg r) =
      some (pyGet "source_url" (JsonVal.str "") r) := rfl

theorem schema_notes (r : List (String × JsonVal)) :
    getJ "notes" (paprika_to_schemaorg r) =
      some (pyGet "notes" (JsonVal.str "") r) := rfl

theorem schema_difficulty (r : List (String × JsonVal)) :
    getJ "difficulty" (paprika_to_schemaorg r) =
      some (pyGet "difficulty" (JsonVal.str "") r) := rfl

theorem schema_nutritionalInfo (r : List (String × JsonVal)) :
    getJ "nutritionalInfo" (paprika_to_schemaorg r) =
      some (pyGet "nutritional_info" (JsonVal.str "") r) := rfl

theorem schema_category (r : List (String × JsonVal)) :
    getJ "category" (paprika_to_schemaorg r) =
      some (pyGet "categories" (JsonVal.arr []) r) := rfl

theorem pyGet_of_none {k : String} {d : JsonVal} {r : List (String × JsonVal)}
    (h : getJ k r = none) : pyGet k d r = d := by
  unfold pyGet
  rw [h]
  rfl

theorem linesField_of_str {k : String} {s : String} {r : List (String × JsonVal)}
    (h : getJ k r = some (JsonVal.str s)) :
    linesField k r = splitTrimLines s := by
  unfold linesField
  rw [h]

theorem linesField_of_not_str {k : String} {r : List (String × JsonVal)}
    (h : ∀ s, getJ k r ≠ some (JsonVal.str s)) : linesField k r = [] := by
  unfold linesField
  cases he : getJ k r with
  | none => rfl
  | some v =>
    cases v with
    | str s => exact absurd he (h s)
    | null => rfl
    | bool b => rfl
    | num n => rfl
    | arr l => rfl
    | obj l => rfl

/-! ## Claim theorems for the Record Mapper -/

/-- C10: the Target Record has exactly the fixed key set, `@context`
is always the schema.org URL, `@type` is always `Recipe`, and no
unrecognized source key (photo_data included) ever appears among the
output keys. -/
theorem mapper_fixed_shape (r : List (String × JsonVal)) :
    (paprika_to_schemaorg r).map Prod.fst = schemaKeys ∧
    getJ "@context" (paprika_to_schemaorg r) =
      some (JsonVal.str "https://schema.org/") ∧
    getJ "@type" (paprika_to_schemaorg r) = some (JsonVal.str "Recipe") ∧
    ∀ k, k ∉ schemaKeys → getJ k (paprika_to_schemaorg r) = none := by
  refine ⟨rfl, rfl, rfl, ?_⟩
  intro k hk
  apply getJ_eq_none_of_not_mem_keys
  intro hc
  apply hk
  have e : (paprika_to_schemaorg r).map Prod.fst = schemaKeys := rfl
  rwa [e] at hc

theorem mapper_fixed_shape_witness :
    getJ "photo_data"
      (paprika_to_schemaorg [("photo_data", JsonVal.str "AAAA")]) = none :=
  (mapper_fixed_shape [("photo_data", JsonVal.str "AAAA")]).2.2.2
    "photo_data" (by decide)

/-- C3 counterexample: on a Source Record with no `name` field, the
mapper's `name` output is the literal `Untitled`, not the empty string
that the claim's blanket string-default rule predicts. -/
theorem mapper_name_default_not_empty :
    getJ "name" ([] : List (String × JsonVal)) = none ∧
    getJ "name" (paprika_to_schemaorg []) = some (JsonVal.str "Untitled") ∧
    getJ "name" (paprika_to_schemaorg []) ≠ some (JsonVal.str "") := by
  refine ⟨rfl, rfl, ?_⟩
  intro h
  have e : getJ "name" (paprika_to_schemaorg []) =
      some (JsonVal.str "Untitled") := rfl
  rw [e] at h
  have h2 := Option.some.inj h
  injection h2 with hs
  exact absurd hs (by decide)

/-- C3 amended: the mapper is total and pure by construction, and every
absent optional source field yields its default: the empty string for
string-valued fields except `name` (which defaults to `Untitled`),
zero for the rating value, and an empty sequence for sequence fields. -/
theorem mapper_defaults (r : List (String × JsonVal)) :
    (getJ "name" r = none →
      getJ "name" (paprika_to_schemaorg r) = some (JsonVal.str "Untitled")) ∧
    (getJ "image_url" r = none →
      getJ "image" (paprika_to_schemaorg r) = some (JsonVal.str "")) ∧
    (getJ "description" r = none →
      getJ "description" (paprika_to_schemaorg r) = some (JsonVal.str "")) ∧
    (getJ "cook_time" r = none →
      getJ "cookTime" (paprika_to_schemaorg r) = some (JsonVal.str "")) ∧
    (getJ "prep_time" r = none →
      getJ "prepTime" (paprika_to_schemaorg r) = some (JsonVal.str "")) ∧
    (getJ "total_time" r = none →
      getJ "totalTime" (paprika_to_schemaorg r) = some (JsonVal.str "")) ∧
    (getJ "servings" r = none →
      getJ "recipeYield" (paprika_to_schemaorg r) = some (JsonVal.str "")) ∧
    (getJ "source" r = none →
      getJ "author" (paprika_to_schemaorg r) = some (JsonVal.str "")) ∧
    (getJ "source_url" r = none →
      getJ "url" (paprika_to_schemaorg r) = some (JsonVal.str "")) ∧
    (getJ "notes" r = none →
      getJ "notes" (paprika_to_schemaorg r) = some (JsonVal.str "")) ∧
    (getJ "difficulty" r = none →
      getJ "difficulty" (paprika_to_schemaorg r) = some (JsonVal.str "")) ∧
    (getJ "nutritional_info" r = none →
      getJ "nutritionalInfo" (paprika_to_schemaorg r) = some (JsonVal.str "")) ∧
    (getJ "rating" r = none →
      getJ "aggregateRating" (paprika_to_schemaorg r) = some (JsonVal.obj
        [("@type", JsonVal.str "AggregateRating"),
         ("ratingValue", JsonVal.num 0), ("ratingCount", JsonVal.num 1)])) ∧
    (getJ "categories" r = none →
      getJ "category" (paprika_to_schemaorg r) = some (JsonVal.arr [])) ∧
    (getJ "ingredients" r = none →
      getJ "recipeIngredient" (paprika_to_schemaorg r) = some (JsonVal.arr [])) ∧
    (getJ "directions" r = none →
      getJ "recipeInstructions" (paprika_to_schemaorg r) =
        some (JsonVal.arr [])) := by
  refine ⟨fun h => ?_, fun h => ?_, fun h => ?_, fun h => ?_, fun h => ?_,
    fun h => ?_, fun h => ?_, fun h => ?_, fun h => ?_, fun h => ?_,
    fun h => ?_, fun h => ?_, fun h => ?_, fun h => ?_, fun h => ?_,
    fun h => ?_⟩
  · rw [schema_name, pyGet_of_none h]
  · rw [schema_image, pyGet_of_none h]
  · rw [schema_description, pyGet_of_none h]
  · rw [schema_cookTime, pyGet_of_none h]
  · rw [schema_prepTime, pyGet_of_none h]
  · rw [schema_totalTime, pyGet_of_none h]
  · rw [schema_yield, pyGet_of_none h]
  · rw [schema_author, pyGet_of_none h]
  · rw [schema_url, pyGet_of_none h]
  · rw [schema_notes, pyGet_of_none h]
  · rw [schema_difficulty, pyGet_of_none h]
  · rw [schema_nutritionalInfo, pyGet_of_none h]
  · rw [schema_rating, pyGet_of_none h]
  · rw [schema_category, pyGet_of_none h]
  · rw [schema_ingredient,
      linesField_of_not_str (fun s hs => by rw [h] at hs; exact Option.noConfusion hs)]
    rfl
  · rw [schema_instructions,
      linesField_of_not_str (fun s hs => by rw [h] at hs; exact Option.noConfusion hs)]
    rfl

theorem mapper_defaults_witness :
    getJ "name" (paprika_to_schemaorg [("photo_data", JsonVal.str "x")]) =
      some (JsonVal.str "Untitled") ∧
    getJ "recipeIngredient"
      (paprika_to_schemaorg [("photo_data", JsonVal.str "x")]) =
      some (JsonVal.arr []) ∧
    getJ "aggregateRating"
      (paprika_to_schemaorg [("photo_data", JsonVal.str "x")]) =
      some (JsonVal.obj
        [("@type", JsonVal.str "AggregateRating"),
         ("ratingValue", JsonVal.num 0), ("ratingCount", JsonVal.num 1)]) :=
  ⟨(mapper_defaults [("photo_data", JsonVal.str "x")]).1 rfl,
   (mapper_defaults [("photo_data", JsonVal.str "x")]).2.2.2.2.2.2.2.2.2.2.2.2.2.2.1 rfl,
   (mapper_defaults [("photo_data", JsonVal.str "x")]).2.2.2.2.2.2.2.2.2.2.2.2.1 rfl⟩

/-- C4: ingredient and instruction sequences come from splitting the
source string on newline, trimming each line, discarding empty lines
and preserving order; an absent or non-string source field yields the
empty sequence; and the concrete input `a\nb\n\nc` yields `[a, b, c]`. -/
theorem mapper_line_fields (r : List (String × JsonVal)) :
    (∀ s, getJ "ingredients" r = some (JsonVal.str s) →
      getJ "recipeIngredient" (paprika_to_schemaorg r) =
        some (JsonVal.arr ((splitTrimLines s).map JsonVal.str))) ∧
    ((∀ s, getJ "ingredients" r ≠ some (JsonVal.str s)) →
      getJ "recipeIngredient" (paprika_to_schemaorg r) =
        some (JsonVal.arr [])) ∧
    (∀ s, getJ "directions" r = some (JsonVal.str s) →
      getJ "recipeInstructions" (paprika_to_schemaorg r) =
        some (JsonVal.arr ((splitTrimLines s).map JsonVal.str))) ∧
    ((∀ s, getJ "directions" r ≠ some (JsonVal.str s)) →
      getJ "recipeInstructions" (paprika_to_schemaorg r) =
        some (JsonVal.arr [])) ∧
    splitTrimLines "a\nb\n\nc" = ["a", "b", "c"] := by
  refine ⟨?_, ?_, ?_, ?_, by decide⟩
  · intro s hs
    rw [schema_ingredient, linesField_of_str hs]
  · intro hs
    rw [schema_ingredient, linesField_of_not_str hs]
    rfl
  · intro s hs
    rw [schema_instructions, linesField_of_str hs]
  · intro hs
    rw [schema_instructions, linesField_of_not_str hs]
    rfl

theorem mapper_line_fields_witness :
    getJ "recipeIngredient"
      (paprika_to_schemaorg [("ingredients", JsonVal.str "a\nb\n\nc")]) =
      some (JsonVal.arr [JsonVal.str "a", JsonVal.str "b", JsonVal.str "c"]) := by
  have h := (mapper_line_fields [("ingredients", JsonVal.str "a\nb\n\nc")]).1
    "a\nb\n\nc" rfl
  rw [h]
  have e : splitTrimLines "a\nb\n\nc" = ["a", "b", "c"] := by decide
  rw [e]
  rfl

/-- C5: the Target Record's `aggregateRating` wraps the source's
`rating` value (default 0) with a constant count of 1, whatever the
rest of the record holds; on `{name: Tea, rating: 4}` it yields
ratingValue 4, ratingCount 1, and the name maps to `Tea`. -/
theorem mapper_rating_shape (r : List (String × JsonVal)) :
    getJ "aggregateRating" (paprika_to_schemaorg r) =
      some (JsonVal.obj
        [("@type", JsonVal.str "AggregateRating"),
         ("ratingValue", pyGet "rating" (JsonVal.num 0) r),
         ("ratingCount", JsonVal.num 1)]) ∧
    getJ "aggregateRating" (paprika_to_schemaorg
        [("name", JsonVal.str "Tea"), ("rating", JsonVal.num 4)]) =
      some (JsonVal.obj
        [("@type", JsonVal.str "AggregateRating"),
         ("ratingValue", JsonVal.num 4), ("ratingCount", JsonVal.num 1)]) ∧
    getJ "name" (paprika_to_schemaorg
        [("name", JsonVal.str "Tea"), ("rating", JsonVal.num 4)]) =
      some (JsonVal.str "Tea") := by
  exact ⟨schema_rating r, rfl, rfl⟩

/-! ## base64 decoding (model of `base64.b64decode`) -/

/-- Index of a character in the standard base64 alphabet. -/
def b64Index (c : Char) : Option Nat :=
  if 'A' ≤ c ∧ c ≤ 'Z' then some (c.toNat - 65)
  else if 'a' ≤ c ∧ c ≤ 'z' then some (c.toNat - 97 + 26)
  else if '0' ≤ c ∧ c ≤ '9' then some (c.toNat - 48 + 52)
  else if c == '+' then some 62
  else if c == '/' then some 63
  else none

/-- Alphabet character or padding; anything else is discarded before
decoding, as `b64decode` does without strict validation. -/
def isB64OrPad (c : Char) : Bool :=
  (b64Index c).isSome || c == '='

/-- Decode base64 in groups of four characters; padding is only legal
at the very end, and leftover characters are a padding error. -/
def decodeGroups : List Char → Option (List Nat)
  | [] => some []
  | a :: b :: c :: d :: rest =>
    match b64Index a, b64Index b with
    | some va, some vb =>
      if c == '=' then
        if d == '=' ∧ rest = [] then some [va * 4 + vb / 16]
        else none
      else
        match b64Index c with
        | some vc =>
          if d == '=' then
            if rest = [] then
              some [va * 4 + vb / 16, (vb % 16) * 16 + vc / 4]
            else none
          else
            match b64Index d with
            | some vd =>
              (decodeGroups rest).map (fun t =>
                (va * 4 + vb / 16) :: ((vb % 16) * 16 + vc / 4) ::
                  ((vc % 4) * 64 + vd) :: t)
            | none => none
        | none => none
    | _, _ => none
  | _ => none

/-- Model of `base64.b64decode` on a string: discard foreign
characters, then decode; `none` models the raised `binascii.Error`. -/
def b64decode (s : String) : Option (List Nat) :=
  decodeGroups (s.data.filter isB64OrPad)

/-- `b64decode` applied to a JSON value: passing a non-string raises
`TypeError`, modelled as `none` like any other decode failure. -/
def decodePhoto : JsonVal → Option (List Nat)
  | JsonVal.str s => b64decode s
  | _ => none

/-! ## Filesystem and console-output model -/

/-- One output file: raw bytes (`full.jpg`) or a serialized JSON
document (`recipe.json`). -/
inductive FileData where
  | bin (bytes : List Nat)
  | doc (j : JsonVal)

/-- The output tree as path-to-content bindings; the most recent write
of a path is the binding found first. -/
abbrev FS := List (String × FileData)

def fsWrite (p : String) (f : FileData) (fs : FS) : FS :=
  (p, f) :: fs

def fsGet (p : String) (fs : FS) : Option FileData :=
  (fs.find? (fun q => q.1 == p)).map (fun q => q.2)

/-- `os.path.join` for the relative paths built by the converter. -/
def pathJoin (a b : String) : String :=
  a ++ "/" ++ b

/-- Python dict assignment on an existing key: replace in place. -/
def setJ (k : String) (v : JsonVal) (obj : List (String × JsonVal)) :
    List (String × JsonVal) :=
  obj.map (fun p => if p.1 == k then (k, v) else p)

/-- Console messages the converter prints, as structured entries. -/
inductive LogEntry where
  | photoError (recipeName : String)
  | converted (label : String) (outPath : String)
  | memberError (member : String) (zipPath : String)
  | archiveError (zipPath : String)
  | fileError (filePath : String)
deriving DecidableEq

/-! ## The Record Materializer (`process_recipe_data`) -/

/-- The photo step of `process_recipe_data`: returns the filesystem,
the (possibly image-updated) schema record, and the error messages.
Mirrors: absent or falsy `photo_data` does nothing; a successful
decode writes `full.jpg` and overwrites the image field; a failed
decode prints the photo error. -/
def photoStep (paprika schema : List (String × JsonVal))
    (folder : String) (recipe_name : String) (fs : FS) :
    FS × List (String × JsonVal) × List LogEntry :=
  match getJ "photo_data" paprika with
  | some pv =>
    if truthy pv then
      match decodePhoto pv with
      | some raw =>
        (fsWrite (pathJoin folder "full.jpg") (FileData.bin raw) fs,
         setJ "image" (JsonVal.str "full.jpg") schema, [])
      | none => (fs, schema, [LogEntry.photoError recipe_name])
    else (fs, schema, [])
  | none => (fs, schema, [])

/-- The source's `process_recipe_data`: convert one loaded Paprika
record and write it under the output directory.  `none` models the
`AttributeError` raised by `safe_dirname` when the record's name is
not a string (it escapes this function and is caught by the callers). -/
def process_recipe_data (paprika : List (String × JsonVal))
    (output_dir source_name : String) (fs : FS) :
    Option (FS × List LogEntry) :=
  match pyGet "name" (JsonVal.str "Untitled") (paprika_to_schemaorg paprika) with
  | JsonVal.str recipe_name =>
    let folder := pathJoin output_dir (safe_dirname recipe_name)
    let step := photoStep paprika (paprika_to_schemaorg paprika) folder
      recipe_name fs
    let outPath := pathJoin folder "recipe.json"
    some (fsWrite outPath (FileData.doc (JsonVal.obj step.2.1)) step.1,
      step.2.2 ++
        [LogEntry.converted
          (if source_name == "" then recipe_name else source_name) outPath])
  | _ => none

/-! ## Helper lemmas for the materializer -/

theorem string_data_append (a b : String) : (a ++ b).data = a.data ++ b.data :=
  rfl

theorem string_append_left_cancel {a b c : String} (h : a ++ b = a ++ c) :
    b = c := by
  have hd : a.data ++ b.data = a.data ++ c.data := by
    have := congrArg String.data h
    rwa [string_data_append, string_data_append] at this
  have : b.data = c.data := List.append_cancel_left hd
  exact congrArg String.mk this

theorem pathJoin_ne {a b c : String} (h : b ≠ c) : pathJoin a b ≠ pathJoin a c := by
  intro he
  apply h
  unfold pathJoin at he
  exact string_append_left_cancel he

theorem name_on_schema (r : List (String × JsonVal)) (d : JsonVal) :
    pyGet "name" d (paprika_to_schemaorg r) =
      pyGet "name" (JsonVal.str "Untitled") r := rfl

theorem process_eq_of_name {r : List (String × JsonVal)}
    {out src : String} {fs : FS} {n : String}
    (hname : pyGet "name" (JsonVal.str "Untitled") r = JsonVal.str n) :
    process_recipe_data r out src fs =
      some (fsWrite (pathJoin (pathJoin out (safe_dirname n)) "recipe.json")
        (FileData.doc (JsonVal.obj (photoStep r (paprika_to_schemaorg r)
          (pathJoin out (safe_dirname n)) n fs).2.1))
        (photoStep r (paprika_to_schemaorg r)
          (pathJoin out (safe_dirname n)) n fs).1,
      (photoStep r (paprika_to_schemaorg r)
        (pathJoin out (safe_dirname n)) n fs).2.2 ++
        [LogEntry.converted (if src == "" then n else src)
          (pathJoin (pathJoin out (safe_dirname n)) "recipe.json")]) := by
  unfold process_recipe_data
  rw [name_on_schema, hname]

theorem photoStep_absent {paprika schema : List (String × JsonVal)}
    {folder n : String} {fs : FS} (h : getJ "photo_data" paprika = none) :
    photoStep paprika schema folder n fs = (fs, schema, []) := by
  unfold photoStep
  rw [h]

theorem photoStep_falsy {paprika schema : List (String × JsonVal)}
    {folder n : String} {fs : FS} {pv : JsonVal}
    (h : getJ "photo_data" paprika = some pv) (ht : truthy pv = false) :
    photoStep paprika schema folder n fs = (fs, schema, []) := by
  unfold photoStep
  rw [h]
  simp [ht]

theorem photoStep_success {paprika schema : List (String × JsonVal)}
    {folder n : String} {fs : FS} {pv : JsonVal} {raw : List Nat}
    (h : getJ "photo_data" paprika = some pv) (ht : truthy pv = true)
    (hd : decodePhoto pv = some raw) :
    photoStep paprika schema folder n fs =
      (fsWrite (pathJoin folder "full.jpg") (FileData.bin raw) fs,
       setJ "image" (JsonVal.str "full.jpg") schema, []) := by
  unfold photoStep
  rw [h]
  simp [ht, hd]

theorem photoStep_fail {paprika schema : List (String × JsonVal)}
    {folder n : String} {fs : FS} {pv : JsonVal}
    (h : getJ "photo_data" paprika = some pv) (ht : truthy pv = true)
    (hd : decodePhoto pv = none) :
    photoStep paprika schema folder n fs =
      (fs, schema, [LogEntry.photoError n]) := by
  unfold photoStep
  rw [h]
  simp [ht, hd]

theorem getJ_setJ_image (r : List (String × JsonVal)) (v : JsonVal) :
    getJ "image" (setJ "image" v (paprika_to_schemaorg r)) = some v := rfl

theorem fsGet_fsWrite_self (p : String) (f : FileData) (fs : FS) :
    fsGet p (fsWrite p f fs) = some f := by
  unfold fsGet fsWrite
  rw [List.find?_cons_of_pos]
  · rfl
  · simp

theorem fsGet_fsWrite_ne {p q : String} (f : FileData) (fs : FS)
    (h : q ≠ p) : fsGet p (fsWrite q f fs) = fsGet p fs := by
  unfold fsGet fsWrite
  rw [List.find?_cons_of_neg]
  simp [h]

/-! ## Claim theorems for the Record Materializer -/

/-- C6: with a truthy `photo_data` that decodes, the decoded bytes are
written to `full.jpg` and the written document's image field is the
literal `full.jpg`; with a truthy `photo_data` that fails to decode, an
error is reported, no `full.jpg` is created, the image field keeps the
source's `image_url` (default empty), and `recipe.json` is still
written. -/
theorem materializer_photo_handling
    (r : List (String × JsonVal)) (out src : String) (fs : FS)
    (n b : String) :
    (∀ raw, pyGet "name" (JsonVal.str "Untitled") r = JsonVal.str n →
      getJ "photo_data" r = some (JsonVal.str b) → b ≠ "" →
      b64decode b = some raw →
      process_recipe_data r out src fs =
        some (fsWrite (pathJoin (pathJoin out (safe_dirname n)) "recipe.json")
          (FileData.doc (JsonVal.obj
            (setJ "image" (JsonVal.str "full.jpg") (paprika_to_schemaorg r))))
          (fsWrite (pathJoin (pathJoin out (safe_dirname n)) "full.jpg")
            (FileData.bin raw) fs),
        [LogEntry.converted (if src == "" then n else src)
          (pathJoin (pathJoin out (safe_dirname n)) "recipe.json")]) ∧
      getJ "image" (setJ "image" (JsonVal.str "full.jpg")
        (paprika_to_schemaorg r)) = some (JsonVal.str "full.jpg")) ∧
    (pyGet "name" (JsonVal.str "Untitled") r = JsonVal.str n →
      getJ "photo_data" r = some (JsonVal.str b) → b ≠ "" →
      b64decode b = none →
      process_recipe_data r out src fs =
        some (fsWrite (pathJoin (pathJoin out (safe_dirname n)) "recipe.json")
          (FileData.doc (JsonVal.obj (paprika_to_schemaorg r))) fs,
        [LogEntry.photoError n,
         LogEntry.converted (if src == "" then n else src)
          (pathJoin (pathJoin out (safe_dirname n)) "recipe.json")]) ∧
      fsGet (pathJoin (pathJoin out (safe_dirname n)) "full.jpg")
        (fsWrite (pathJoin (pathJoin out (safe_dirname n)) "recipe.json")
          (FileData.doc (JsonVal.obj (paprika_to_schemaorg r))) fs) =
        fsGet (pathJoin (pathJoin out (safe_dirname n)) "full.jpg") fs ∧
      getJ "image" (paprika_to_schemaorg r) =
        some (pyGet "image_url" (JsonVal.str "") r)) := by
  constructor
  · intro raw hn hp hb hd
    have ht : truthy (JsonVal.str b) = true := by
      simp [truthy, hb]
    have hd2 : decodePhoto (JsonVal.str b) = some raw := hd
    constructor
    · rw [process_eq_of_name hn, photoStep_success hp ht hd2]
      rfl
    · exact getJ_setJ_image r _
  · intro hn hp hb hd
    have ht : truthy (JsonVal.str b) = true := by
      simp [truthy, hb]
    have hd2 : decodePhoto (JsonVal.str b) = none := hd
    refine ⟨?_, ?_, ?_⟩
    · rw [process_eq_of_name hn, photoStep_fail hp ht hd2]
      rfl
    · exact fsGet_fsWrite_ne _ _ (pathJoin_ne (by decide))
    · exact schema_image r

theorem materializer_photo_handling_witness :
    (process_recipe_data
        [("name", JsonVal.str "Pic"), ("photo_data", JsonVal.str "AAAA")]
        "o" "" [] =
      some (fsWrite (pathJoin (pathJoin "o" (safe_dirname "Pic")) "recipe.json")
        (FileData.doc (JsonVal.obj (setJ "image" (JsonVal.str "full.jpg")
          (paprika_to_schemaorg
            [("name", JsonVal.str "Pic"), ("photo_data", JsonVal.str "AAAA")]))))
        (fsWrite (pathJoin (pathJoin "o" (safe_dirname "Pic")) "full.jpg")
          (FileData.bin [0, 0, 0]) []),
      [LogEntry.converted (if ("" : String) == "" then "Pic" else "")
        (pathJoin (pathJoin "o" (safe_dirname "Pic")) "recipe.json")])) ∧
    (process_recipe_data
        [("name", JsonVal.str "Pic"), ("photo_data", JsonVal.str "abc")]
        "o" "" [] =
      some (fsWrite (pathJoin (pathJoin "o" (safe_dirname "Pic")) "recipe.json")
        (FileData.doc (JsonVal.obj (paprika_to_schemaorg
          [("name", JsonVal.str "Pic"), ("photo_data", JsonVal.str "abc")]))) [],
      [LogEntry.photoError "Pic",
       LogEntry.converted (if ("" : String) == "" then "Pic" else "")
        (pathJoin (pathJoin "o" (safe_dirname "Pic")) "recipe.json")])) :=
  ⟨((materializer_photo_handling
      [("name", JsonVal.str "Pic"), ("photo_data", JsonVal.str "AAAA")]
      "o" "" [] "Pic" "AAAA").1 [0, 0, 0] rfl rfl (by decide) rfl).1,
   ((materializer_photo_handling
      [("name", JsonVal.str "Pic"), ("photo_data", JsonVal.str "abc")]
      "o" "" [] "Pic" "abc").2 rfl rfl (by decide) rfl).1⟩

/-- C9: two records whose names sanitize to the same folder are both
written to that folder's `recipe.json` with no collision error; the
later record's document silently overwrites the earlier one. -/
theorem collision_last_write_wins
    (r1 r2 : List (String × JsonVal)) (out : String) (fs : FS)
    (n1 n2 : String)
    (h1 : pyGet "name" (JsonVal.str "Untitled") r1 = JsonVal.str n1)
    (h2 : pyGet "name" (JsonVal.str "Untitled") r2 = JsonVal.str n2)
    (hcol : safe_dirname n1 = safe_dirname n2)
    (hp1 : getJ "photo_data" r1 = none)
    (hp2 : getJ "photo_data" r2 = none) :
    ∃ fs1 fs2 : FS,
      process_recipe_data r1 out "" fs = some (fs1,
        [LogEntry.converted n1
          (pathJoin (pathJoin out (safe_dirname n1)) "recipe.json")]) ∧
      process_recipe_data r2 out "" fs1 = some (fs2,
        [LogEntry.converted n2
          (pathJoin (pathJoin out (safe_dirname n1)) "recipe.json")]) ∧
      fsGet (pathJoin (pathJoin out (safe_dirname n1)) "recipe.json") fs2 =
        some (FileData.doc (JsonVal.obj (paprika_to_schemaorg r2))) := by
  refine ⟨fsWrite (pathJoin (pathJoin out (safe_dirname n1)) "recipe.json")
      (FileData.doc (JsonVal.obj (paprika_to_schemaorg r1))) fs,
    fsWrite (pathJoin (pathJoin out (safe_dirname n1)) "recipe.json")
      (FileData.doc (JsonVal.obj (paprika_to_schemaorg r2)))
      (fsWrite (pathJoin (pathJoin out (safe_dirname n1)) "recipe.json")
        (FileData.doc (JsonVal.obj (paprika_to_schemaorg r1))) fs),
    ?_, ?_, ?_⟩
  · rw [process_eq_of_name h1, photoStep_absent hp1]
    rfl
  · rw [process_eq_of_name h2, photoStep_absent hp2, ← hcol]
    rfl
  · exact fsGet_fsWrite_self _ _ _

theorem collision_last_write_wins_witness :
    ∃ fs1 fs2 : FS,
      process_recipe_data [("name", JsonVal.str "Tea!")] "o" "" [] =
        some (fs1, [LogEntry.converted "Tea!"
          (pathJoin (pathJoin "o" (safe_dirname "Tea!")) "recipe.json")]) ∧
      process_recipe_data [("name", JsonVal.str "TEA")] "o" "" fs1 =
        some (fs2, [LogEntry.converted "TEA"
          (pathJoin (pathJoin "o" (safe_dirname "Tea!")) "recipe.json")]) ∧
      fsGet (pathJoin (pathJoin "o" (safe_dirname "Tea!")) "recipe.json") fs2 =
        some (FileData.doc (JsonVal.obj
          (paprika_to_schemaorg [("name", JsonVal.str "TEA")]))) :=
  collision_last_write_wins [("name", JsonVal.str "Tea!")]
    [("name", JsonVal.str "TEA")] "o" [] "Tea!" "TEA"
    rfl rfl (by decide) rfl rfl

/-! ## The Archive resolver (`process_bulk_export`) -/

/-- Python `str.lower`. -/
def pyLower (s : String) : String :=
  ⟨s.data.map pyToLower⟩

/-- `str.endswith`. -/
def strEndsWith (s suffix : String) : Bool :=
  suffix.data.isSuffixOf s.data

/-- `member.lower().endswith(".paprikarecipe")`. -/
def hasRecipeExt (name : String) : Bool :=
  strEndsWith (pyLower name) ".paprikarecipe"

/-- One archive member.  `payload` models the combined outcome of
`zf.open(member).read()`, `gzip.decompress` and `json.loads` on that
member: `some` carries the parsed record, `none` stands for any
exception raised along the way (a corrupt member). -/
structure ZipMember where
  name : String
  payload : Option (List (String × JsonVal))

/-- The member loop of `process_bulk_export`: members with the wrong
extension are ignored; a corrupt selected member logs a member error
and is skipped; a record whose processing raises (non-string name)
is likewise caught at member level; processing then continues. -/
def processMembers (zip_path output_dir : String) :
    List ZipMember → FS → FS × List LogEntry
  | [], fs => (fs, [])
  | m :: rest, fs =>
    let step : FS × List LogEntry :=
      if hasRecipeExt m.name then
        match m.payload with
        | some r =>
          match process_recipe_data r output_dir m.name fs with
          | some res => res
          | none => (fs, [LogEntry.memberError m.name zip_path])
        | none => (fs, [LogEntry.memberError m.name zip_path])
      else (fs, [])
    let tail := processMembers zip_path output_dir rest step.1
    (tail.1, step.2 ++ tail.2)

/-- The source's `process_bulk_export`.  The archive argument models
`zipfile.ZipFile(zip_path)`: `none` is an archive that fails to open,
`some members` the member list. -/
def process_bulk_export (zip : Option (List ZipMember))
    (zip_path output_dir : String) (fs : FS) : FS × List LogEntry :=
  match zip with
  | none => (fs, [LogEntry.archiveError zip_path])
  | some members => processMembers zip_path output_dir members fs

theorem string_append_right_cancel {a b c : String} (h : a ++ c = b ++ c) :
    a = b := by
  have hd : a.data ++ c.data = b.data ++ c.data := by
    have := congrArg String.data h
    rwa [string_data_append, string_data_append] at this
  exact congrArg String.mk (List.append_cancel_right hd)

theorem pathJoin_ne_left {a b x : String} (h : a ≠ b) :
    pathJoin a x ≠ pathJoin b x := by
  intro he
  apply h
  unfold pathJoin at he
  exact string_append_right_cancel (string_append_right_cancel he)

theorem processMembers_nil (zp out : String) (fs : FS) :
    processMembers zp out [] fs = (fs, []) := rfl

theorem processMembers_cons_ok {zp out mn : String}
    {r : List (String × JsonVal)} {fs : FS} {rest : List ZipMember}
    {n : String} (he : hasRecipeExt mn = true)
    (hn : pyGet "name" (JsonVal.str "Untitled") r = JsonVal.str n)
    (hp : getJ "photo_data" r = none) (hm : mn ≠ "") :
    processMembers zp out (ZipMember.mk mn (some r) :: rest) fs =
      ((processMembers zp out rest
          (fsWrite (pathJoin (pathJoin out (safe_dirname n)) "recipe.json")
            (FileData.doc (JsonVal.obj (paprika_to_schemaorg r))) fs)).1,
        LogEntry.converted mn
            (pathJoin (pathJoin out (safe_dirname n)) "recipe.json") ::
          (processMembers zp out rest
            (fsWrite (pathJoin (pathJoin out (safe_dirname n)) "recipe.json")
              (FileData.doc (JsonVal.obj (paprika_to_schemaorg r))) fs)).2) := by
  have hmb : (mn == "") = false := by
    simp [hm]
  have hpr : process_recipe_data r out mn fs =
      some (fsWrite (pathJoin (pathJoin out (safe_dirname n)) "recipe.json")
          (FileData.doc (JsonVal.obj (paprika_to_schemaorg r))) fs,
        [LogEntry.converted mn
          (pathJoin (pathJoin out (safe_dirname n)) "recipe.json")]) := by
    rw [process_eq_of_name hn, photoStep_absent hp]
    simp [hmb]
  simp [processMembers, he, hpr]

theorem processMembers_cons_corrupt {zp out mn : String} {fs : FS}
    {rest : List ZipMember} (he : hasRecipeExt mn = true) :
    processMembers zp out (ZipMember.mk mn none :: rest) fs =
      ((processMembers zp out rest fs).1,
        LogEntry.memberError mn zp :: (processMembers zp out rest fs).2) := by
  simp [processMembers, he]

/-! ## Claim theorem for the Archive resolver -/

/-- C7: in an archive with two valid members around one corrupt member,
the corrupt member only logs one member error and is skipped, both
valid members are converted into two distinct output documents, and
processing runs to the end; an archive that fails to open logs one
archive error and changes nothing. -/
theorem bulk_export_error_isolation
    (zp out : String) (fs : FS)
    (r1 r2 : List (String × JsonVal)) (mn1 mnC mn2 n1 n2 : String)
    (he1 : hasRecipeExt mn1 = true) (heC : hasRecipeExt mnC = true)
    (he2 : hasRecipeExt mn2 = true)
    (h1 : pyGet "name" (JsonVal.str "Untitled") r1 = JsonVal.str n1)
    (h2 : pyGet "name" (JsonVal.str "Untitled") r2 = JsonVal.str n2)
    (hp1 : getJ "photo_data" r1 = none) (hp2 : getJ "photo_data" r2 = none)
    (hm1 : mn1 ≠ "") (hm2 : mn2 ≠ "")
    (hne : safe_dirname n1 ≠ safe_dirname n2) :
    process_bulk_export
        (some [ZipMember.mk mn1 (some r1), ZipMember.mk mnC none,
               ZipMember.mk mn2 (some r2)]) zp out fs =
      (fsWrite (pathJoin (pathJoin out (safe_dirname n2)) "recipe.json")
        (FileData.doc (JsonVal.obj (paprika_to_schemaorg r2)))
        (fsWrite (pathJoin (pathJoin out (safe_dirname n1)) "recipe.json")
          (FileData.doc (JsonVal.obj (paprika_to_schemaorg r1))) fs),
      [LogEntry.converted mn1
          (pathJoin (pathJoin out (safe_dirname n1)) "recipe.json"),
       LogEntry.memberError mnC zp,
       LogEntry.converted mn2
          (pathJoin (pathJoin out (safe_dirname n2)) "recipe.json")]) ∧
    pathJoin (pathJoin out (safe_dirname n1)) "recipe.json" ≠
      pathJoin (pathJoin out (safe_dirname n2)) "recipe.json" ∧
    process_bulk_export none zp out fs = (fs, [LogEntry.archiveError zp]) := by
  refine ⟨?_, pathJoin_ne_left (pathJoin_ne hne), rfl⟩
  show processMembers zp out _ fs = _
  rw [processMembers_cons_ok he1 h1 hp1 hm1,
    processMembers_cons_corrupt heC,
    processMembers_cons_ok he2 h2 hp2 hm2,
    processMembers_nil]

theorem bulk_export_error_isolation_witness :
    process_bulk_export
        (some [ZipMember.mk "a.paprikarecipe"
                 (some [("name", JsonVal.str "A")]),
               ZipMember.mk "bad.paprikarecipe" none,
               ZipMember.mk "b.paprikarecipe"
                 (some [("name", JsonVal.str "B")])]) "z.zip" "o" [] =
      (fsWrite (pathJoin (pathJoin "o" (safe_dirname "B")) "recipe.json")
        (FileData.doc (JsonVal.obj
          (paprika_to_schemaorg [("name", JsonVal.str "B")])))
        (fsWrite (pathJoin (pathJoin "o" (safe_dirname "A")) "recipe.json")
          (FileData.doc (JsonVal.obj
            (paprika_to_schemaorg [("name", JsonVal.str "A")]))) []),
      [LogEntry.converted "a.paprikarecipe"
          (pathJoin (pathJoin "o" (safe_dirname "A")) "recipe.json"),
       LogEntry.memberError "bad.paprikarecipe" "z.zip",
       LogEntry.converted "b.paprikarecipe"
          (pathJoin (pathJoin "o" (safe_dirname "B")) "recipe.json")]) :=
  (bulk_export_error_isolation "z.zip" "o" []
    [("name", JsonVal.str "A")] [("name", JsonVal.str "B")]
    "a.paprikarecipe" "bad.paprikarecipe" "b.paprikarecipe" "A" "B"
    (by decide) (by decide) (by decide) rfl rfl rfl rfl
    (by decide) (by decide) (by decide)).1

/-! ## The Entry Point (`main`) -/

/-- What the input path is on disk: a directory, a regular file, or
neither (`os.path.isdir` / `os.path.isfile` both false). -/
inductive PathKind where
  | dir
  | file
  | missing
deriving DecidableEq

/-- Which branch `main` takes after argument parsing. -/
inductive Dispatch where
  | usage
  | dirScan
  | bulk
  | single
  | unrecognized
  | invalid
deriving DecidableEq

/-- Observable outcome of `main`: the process exit status, whether
`os.makedirs(output_dir)` ran, whether the usage message was printed,
and the branch taken. -/
structure MainResult where
  exitCode : Nat
  madeOutputDir : Bool
  usagePrinted : Bool
  dispatch : Dispatch

/-- The source's `main`, with the filesystem queries abstracted into
`kindOf`.  `os.makedirs` is assumed to succeed, and record processing
is elided: every exception inside the resolvers is caught there, so it
cannot change the exit status.  Missing arguments print usage and exit
1 before the output directory is created; otherwise the output
directory is created unconditionally, then the input path is
dispatched, and an input that is neither file nor directory exits 1. -/
def main_model (argv : List String) (kindOf : String → PathKind) :
    MainResult :=
  if argv.length < 3 then
    MainResult.mk 1 false true Dispatch.usage
  else
    let input := (argv.get? 1).getD ""
    match kindOf input with
    | PathKind.dir => MainResult.mk 0 true false Dispatch.dirScan
    | PathKind.file =>
      if strEndsWith (pyLower input) ".paprikarecipes" then
        MainResult.mk 0 true false Dispatch.bulk
      else if strEndsWith (pyLower input) ".paprikarecipe" then
        MainResult.mk 0 true false Dispatch.single
      else
        MainResult.mk 0 true false Dispatch.unrecognized
    | PathKind.missing => MainResult.mk 1 true false Dispatch.invalid

/-! ## Claim theorem for the Entry Point -/

/-- C8: the exit status is 1 exactly when an argument is missing
(usage printed, output directory not yet created) or the input path is
neither file nor directory; it is 0 on every other run; and whenever
both arguments are present the output directory is created, before and
regardless of input validation. -/
theorem main_exit_codes (argv : List String) (kindOf : String → PathKind) :
    ((main_model argv kindOf).exitCode = 1 ↔
      argv.length < 3 ∨ kindOf ((argv.get? 1).getD "") = PathKind.missing) ∧
    ((main_model argv kindOf).exitCode = 1 ∨
      (main_model argv kindOf).exitCode = 0) ∧
    (argv.length < 3 →
      (main_model argv kindOf).usagePrinted = true ∧
      (main_model argv kindOf).madeOutputDir = false) ∧
    (3 ≤ argv.length → (main_model argv kindOf).madeOutputDir = true) := by
  unfold main_model
  by_cases hl : argv.length < 3
  · simp [hl]
  · generalize (argv.get? 1).getD "" = input
    cases hk : kindOf input with
    | dir => simp [hl, hk]
    | file =>
      by_cases hb : strEndsWith (pyLower input) ".paprikarecipes" = true
      · simp [hl, hk, hb]
      · by_cases hs : strEndsWith (pyLower input) ".paprikarecipe" = true
        · simp [hl, hk, hb, hs]
        · simp [hl, hk, hb, hs]
    | missing => simp [hl, hk]

theorem main_exit_codes_witness :
    (((main_model ["prog", "in", "out"] (fun _ => PathKind.missing)).exitCode
        = 1 ↔
      (["prog", "in", "out"] : List String).length < 3 ∨
        (fun _ => PathKind.missing) ((["prog", "in", "out"].get? 1).getD "") =
          PathKind.missing) ∧
     (3 ≤ (["prog", "in", "out"] : List String).length →
      (main_model ["prog", "in", "out"]
        (fun _ => PathKind.missing)).madeOutputDir = true)) ∧
    ((["prog"] : List String).length < 3 →
      (main_model ["prog"] (fun _ => PathKind.dir)).usagePrinted = true ∧
      (main_model ["prog"] (fun _ => PathKind.dir)).madeOutputDir = false) :=
  ⟨⟨(main_exit_codes ["prog", "in", "out"] (fun _ => PathKind.missing)).1,
    (main_exit_codes ["prog", "in", "out"]
      (fun _ => PathKind.missing)).2.2.2⟩,
   (main_exit_codes ["prog"] (fun _ => PathKind.dir)).2.2.1⟩

end Paprika
